import Mathlib

/-!
Verification of the keyword dispatch engine of `robotframework-tools`
(`robottools/library/keywords/__init__.py`) and the remote dispatch shim
(`robottools/remote/__init__.py`), via a shallow embedding in Lean 4.

Conventions of the embedding:
* Python strings are Lean `String`s; session objects are identified by a
  `Nat` id, so Python object identity (`is`) becomes `Nat` equality.
* Python dicts that the code iterates are embedded as association lists
  whose list order stands for the dict's iteration order.
* The mutable library instance becomes an explicit `LibState` threaded
  through the call; a raised Python exception becomes an `Except`-style
  outcome paired with the state at the moment the exception propagates
  (Python exceptions do not roll mutable state back).
* Keyword function bodies are opaque Lean functions from the library
  state and the received arguments to a result-or-error.
-/

namespace RobotTools

/-- The implicit argspec attached to a keyword function by the `@keyword`
decorator (Python `inspect`-style): positional parameter names (including
the receiver), default values (already rendered to strings, as
`'%s=%s' % (arg, default)` stringifies them anyway), and the optional
variadic-positional and variadic-keyword parameter names. -/
structure ArgSpec where
  args : List String
  defaults : List String
  varargs : Option String
  keywords : Option String
  deriving Repr, DecidableEq

/-- Outcome of running a keyword function body: a returned value or a
raised error (both rendered as strings). -/
def FuncResult : Type := Except String String

/-- One session-handler facility of the library instance.  `identifier`
is `hcls.meta.identifier_name`, `plural` is
`hcls.meta.plural_identifier_name`; `active` is the library attribute
`<identifier>` (the currently active session object, if any) and `named`
the attribute `<plural_identifier>` (the dict of named session objects,
embedded as an association list with distinct names). -/
structure SessionSlot where
  identifier : String
  plural : String
  active : Option Nat
  named : List (String × Nat)
  deriving Repr, DecidableEq

/-- One context-handler facility of the library instance. `identifier`
is the lower-cased handler class name; `active` is the library attribute
`<identifier>` (the active context value's name) and `known` the context
names the handler can switch to. -/
structure ContextSlot where
  identifier : String
  active : String
  known : List String
  deriving Repr, DecidableEq

/-- The mutable part of the library instance consumed by
`Keyword.__call__`: its session handlers (in `session_handlers` order)
and its context handlers. -/
structure LibState where
  sessionSlots : List SessionSlot
  contextSlots : List ContextSlot
  deriving Repr, DecidableEq

/-- A keyword function body: receives the library instance (state), the
positional arguments and the keyword arguments, exactly as
`func(self.libinstance, *args, **kwargs)` passes them. Bodies in this
model read the library state but do not mutate it. -/
def FuncBody : Type :=
  LibState → List String → List (String × String) → Except String String

/-- A key of the keyword function's context-variant table: the context
value's display name (matched against the library's active contexts) and
the name of its owning context-handler class (`ctx.handler.__name__`). -/
structure CtxValue where
  cname : String
  handler : String
  deriving Repr, DecidableEq

/-- A context-specific variant implementation of a keyword: its own
argspec and body. -/
structure PyVariant where
  argspec : ArgSpec
  vbody : FuncBody

/-- The keyword function object produced by the `@keyword` decorator:
optional explicit argument-list override (`func.args`), the implicit
argspec (`func.argspec`), the body, and the context-variant table
(`func.contexts`, a dict embedded as an ordered association list). -/
structure KwFunc where
  args : List String
  argspec : ArgSpec
  kbody : FuncBody
  contexts : List (CtxValue × PyVariant)

/-- `self.libinstance.contexts`: the currently active context values. -/
def LibState.contexts (st : LibState) : List String :=
  st.contextSlots.map (fun s => s.active)

/-- The `(descriptor, handler-class)` metadata pairs of
`libinstance.session_handlers`, reduced to what `__call__` reads:
`(identifier_name, plural_identifier_name)` per handler, in order. -/
def LibState.sessionHandlerMetas (st : LibState) : List (String × String) :=
  st.sessionSlots.map (fun s => (s.identifier, s.plural))

/-- Errors that can propagate out of `Keyword.__call__` in the model. -/
inductive CallError where
  /-- Modelled from the spec: a session/context switch target name
  unknown to the library instance fails with a
  SwitchTargetNotFound-class error. -/
  | switchTargetNotFound (name : String)
  /-- `getattr` on the library instance for a missing attribute
  (e.g. a missing handler's `switch_*` method). -/
  | attributeError (name : String)
  /-- An error raised by the keyword function's body, carried unmodified. -/
  | bodyError (msg : String)
  deriving Repr, DecidableEq

/-- Python's `str.lower()` on the handler class name, embedded
characterwise (equivalent to `String.toLower`, stated so that it
evaluates by kernel reduction). -/
def lowerString (s : String) : String := ⟨s.data.map Char.toLower⟩

/-- Association-list lookup by key (first match), the dict read. -/
def alookup {α : Type} (k : String) : List (String × α) → Option α
  | [] => none
  | (k', v) :: rest => if k' = k then some v else alookup k rest

/-- `kwargs.pop(key)`: remove the entry for `key` and return its value
together with the remaining kwargs; `none` embeds the `KeyError` branch. -/
def popKw (k : String) : List (String × String) →
    Option (String × List (String × String))
  | [] => none
  | (k', v) :: rest =>
    if k' = k then some (v, rest)
    else match popKw k rest with
      | none => none
      | some (v', rest') => some (v', (k', v) :: rest')

/-- Read the library attribute `<identifier>` of a session handler
(the currently active session object). -/
def getActiveSession (st : LibState) (id : String) : Option (Option Nat) :=
  match st.sessionSlots.find? (fun s => s.identifier = id) with
  | none => none
  | some slot => some slot.active

/-- Read the library attribute `<plural_identifier>` of a session handler
(the dict of named session objects). -/
def getNamedSessions (st : LibState) (plural : String) :
    Option (List (String × Nat)) :=
  match st.sessionSlots.find? (fun s => s.plural = plural) with
  | none => none
  | some slot => some slot.named

/-- Modelled from the spec: `switch_<identifier>(name)` on the library
instance for a session handler (the session-handler class definitions are
not part of the sources at hand).  Per the spec's external-interface
section it activates the session registered under `name`, and fails with
a SwitchTargetNotFound-class error when `name` is unknown; a missing
`switch_*` attribute is an attribute error. -/
def switchSession (st : LibState) (id sname : String) :
    Except CallError LibState :=
  match st.sessionSlots.find? (fun s => s.identifier = id) with
  | none => .error (.attributeError ("switch_" ++ id))
  | some slot =>
    match alookup sname slot.named with
    | none => .error (.switchTargetNotFound sname)
    | some obj =>
      .ok { st with sessionSlots :=
        st.sessionSlots.map (fun s =>
          if s.identifier = id then { s with active := some obj } else s) }

/-- Read the library attribute `<identifier>` of a context handler
(the active context value's name). -/
def getActiveContext (st : LibState) (id : String) : Option String :=
  match st.contextSlots.find? (fun s => s.identifier = id) with
  | none => none
  | some slot => some slot.active

/-- Modelled from the spec: `switch_<identifier>(name)` on the library
instance for a context handler (the context-handler class definitions are
not part of the sources at hand).  It activates the named context, and
fails with a SwitchTargetNotFound-class error when the name is unknown; a
missing `switch_*` attribute is an attribute error. -/
def switchContext (st : LibState) (id cname : String) :
    Except CallError LibState :=
  match st.contextSlots.find? (fun s => s.identifier = id) with
  | none => .error (.attributeError ("switch_" ++ id))
  | some slot =>
    if cname ∈ slot.known then
      .ok { st with contextSlots :=
        st.contextSlots.map (fun s =>
          if s.identifier = id then { s with active := cname } else s) }
    else .error (.switchTargetNotFound cname)

/-- The `Keyword` handler: display name plus the keyword function; the
library instance is passed to each operation as explicit state. -/
structure Keyword where
  name : String
  func : KwFunc

/-- `self.context_handlers`, computed in `Keyword.__init__` as
`set(ctx.handler for ctx in func.contexts)`: the handler class names of
the variant table's keys, each kept once (the list order stands for the
Python set's iteration order). -/
def contextHandlersOf (f : KwFunc) : List String :=
  (f.contexts.map (fun cv => cv.1.handler)).dedup

/-- The session-interception loop of `Keyword.__call__`: for each
`(_, hcls)` in `session_handlers`, pop the kwarg named by the handler's
singular identifier if present, record the current session object under
`(identifier, plural_identifier)`, and switch.  Returns the state, the
remaining kwargs and the recorded sessions, or propagates the first
switch failure (with the state reached so far). -/
def interceptSessions :
    List (String × String) → LibState → List (String × String) →
    List ((String × String) × Option Nat) →
    LibState × Except CallError
      (List (String × String) × List ((String × String) × Option Nat))
  | [], st, kwargs, acc => (st, .ok (kwargs, acc))
  | (id, pl) :: rest, st, kwargs, acc =>
    match popKw id kwargs with
    | none => interceptSessions rest st kwargs acc
    | some (sname, kwargs') =>
      match getActiveSession st id with
      | none => (st, .error (.attributeError id))
      | some cur =>
        match switchSession st id sname with
        | .error e => (st, .error e)
        | .ok st' => interceptSessions rest st' kwargs' (acc ++ [((id, pl), cur)])

/-- The context-interception loop of `Keyword.__call__`: for each handler
class in `self.context_handlers`, pop the kwarg named by the lower-cased
class name if present, record the current context name under the
identifier, and switch. -/
def interceptContexts :
    List String → LibState → List (String × String) →
    List (String × String) →
    LibState × Except CallError
      (List (String × String) × List (String × String))
  | [], st, kwargs, acc => (st, .ok (kwargs, acc))
  | hname :: rest, st, kwargs, acc =>
    let id := lowerString hname
    match popKw id kwargs with
    | none => interceptContexts rest st kwargs acc
    | some (ctxname, kwargs') =>
      match getActiveContext st id with
      | none => (st, .error (.attributeError id))
      | some cur =>
        match switchContext st id ctxname with
        | .error e => (st, .error e)
        | .ok st' => interceptContexts rest st' kwargs' (acc ++ [(id, cur)])

/-- The variant-resolution scan of `Keyword.__call__`:
`for context, context_func in func.contexts.items(): if context in
self.libinstance.contexts: func = context_func` — later matches override
earlier ones.  Returns the resolved function's argspec and body (the base
function when nothing matches). -/
def resolveVariant (f : KwFunc) (active : List String) : ArgSpec × FuncBody :=
  f.contexts.foldl
    (fun acc cv =>
      if cv.1.cname ∈ active then (cv.2.argspec, cv.2.vbody) else acc)
    (f.argspec, f.kbody)

/-- The context-restoration loop: `for identifier, ctxname in
current_contexts.items(): switch_<identifier>(ctxname)`.  A failing
switch-back propagates (remaining restores are skipped). -/
def restoreContexts :
    List (String × String) → LibState → LibState × Option CallError
  | [], st => (st, none)
  | (id, cname) :: rest, st =>
    match switchContext st id cname with
    | .error e => (st, some e)
    | .ok st' => restoreContexts rest st'

/-- The inner loop of session restoration: `for sname, s in
getattr(self.libinstance, plural_identifier).items(): if s is session:
switch_<identifier>(sname)` — every identity match triggers a switch
(there is no break), so the last matching name wins. -/
def restoreSessionScan (id : String) (sess : Option Nat) :
    List (String × Nat) → LibState → LibState × Option CallError
  | [], st => (st, none)
  | (sname, s) :: rest, st =>
    if some s = sess then
      match switchSession st id sname with
      | .error e => (st, some e)
      | .ok st' => restoreSessionScan id sess rest st'
    else restoreSessionScan id sess rest st

/-- The session-restoration loop: for each recorded
`((identifier, plural_identifier), session)`, scan the library's current
named-session dict for that plural identifier and switch back on object
identity. -/
def restoreSessions :
    List ((String × String) × Option Nat) → LibState →
    LibState × Option CallError
  | [], st => (st, none)
  | ((id, pl), sess) :: rest, st =>
    match getNamedSessions st pl with
    | none => (st, some (.attributeError pl))
    | some named =>
      match restoreSessionScan id sess named st with
      | (st', some e) => (st', some e)
      | (st', none) => restoreSessions rest st'

/-- `'%s=%s' % item` re-encoding of one remaining keyword argument. -/
def encodeKwarg (p : String × String) : String := p.1 ++ "=" ++ p.2

/-- `Keyword.__call__(*args, **kwargs)`, translated line by line:
session interception, context interception, variant resolution, the
kwargs-support test on `self.func.argspec.keywords` (the base function's
argspec), invocation, then — only after a normal return — context and
session restoration.  The result pairs the library state observed by the
caller with the returned value or the propagating error. -/
def Keyword.call (kw : Keyword) (st : LibState) (args : List String)
    (kwargs : List (String × String)) : LibState × Except CallError String :=
  match interceptSessions st.sessionHandlerMetas st kwargs [] with
  | (st1, .error e) => (st1, .error e)
  | (st1, .ok (kwargs1, curSessions)) =>
    match interceptContexts (contextHandlersOf kw.func) st1 kwargs1 [] with
    | (st2, .error e) => (st2, .error e)
    | (st2, .ok (kwargs2, curContexts)) =>
      let resolved := resolveVariant kw.func st2.contexts
      let invoked :=
        if kw.func.argspec.keywords.isSome ∨ kwargs2 = [] then
          resolved.2 st2 args kwargs2
        else
          resolved.2 st2 (args ++ kwargs2.map encodeKwarg) []
      match invoked with
      | .error e => (st2, .error (.bodyError e))
      | .ok v =>
        match restoreContexts curContexts st2 with
        | (st3, some e) => (st3, .error e)
        | (st3, none) =>
          match restoreSessions curSessions st3 with
          | (st4, some e) => (st4, .error e)
          | (st4, none) => (st4, .ok v)

/-- The tail of `Keyword.__call__` after the invocation of the resolved
function: on a raised body error, propagate it unmodified (no
restoration runs); on a normal return, restore contexts, then sessions,
then return the value. -/
def afterInvoke (st2 : LibState) (curContexts : List (String × String))
    (curSessions : List ((String × String) × Option Nat))
    (invoked : Except String String) : LibState × Except CallError String :=
  match invoked with
  | .error e => (st2, .error (.bodyError e))
  | .ok v =>
    match restoreContexts curContexts st2 with
    | (st3, some e) => (st3, .error e)
    | (st3, none) =>
      match restoreSessions curSessions st3 with
      | (st4, some e) => (st4, .error e)
      | (st4, none) => (st4, .ok v)

/-- The implicit-argspec part of `Keyword.args()`: drop the receiver,
then render each positional parameter, applying
`defaults[i - len(posargs)]` with Python negative-index semantics (an
out-of-range lookup — `IndexError` — yields the bare name). -/
def implicitPosTokens (argspec : ArgSpec) : List String :=
  let posargs := argspec.args.drop 1
  let n := posargs.length
  let d := argspec.defaults
  if d ≠ [] then
    posargs.enum.map (fun p =>
      if n ≤ d.length + p.1 then
        p.2 ++ "=" ++ d.getD (d.length + p.1 - n) ""
      else p.2)
  else posargs

/-- `Keyword.args()` materialized as a list (the Python generator's
yields in order): the explicit override when truthy, otherwise the
implicit tokens, `*varargs`, and `**keywords` or the synthetic
`**options`. -/
def Keyword.argsList (kw : Keyword) (st : LibState) : List String :=
  if kw.func.args ≠ [] then kw.func.args
  else
    let argspec := kw.func.argspec
    implicitPosTokens argspec
      ++ (match argspec.varargs with
          | some v => ["*" ++ v]
          | none => [])
      ++ (match argspec.keywords with
          | some k => ["**" ++ k]
          | none =>
            if st.sessionSlots ≠ [] ∨ contextHandlersOf kw.func ≠ [] then
              ["**options"]
            else [])

/-! ### The remote dispatch shim (`robottools/remote/__init__.py`) -/

/-- The Python builtin exception classes relevant to
`import_remote_library`, with enough of the builtin hierarchy to decide
subclass questions. -/
inductive ExcClass where
  | exception
  | runtimeError
  | osError
  | permissionError
  deriving Repr, DecidableEq

/-- Python `issubclass` on the embedded classes, per the builtin
hierarchy: `PermissionError ⊂ OSError ⊂ Exception` and
`RuntimeError ⊂ Exception`. -/
def ExcClass.isSubclassOf (c d : ExcClass) : Bool :=
  c = d ||
    match c with
    | .permissionError => d = .osError || d = .exception
    | .runtimeError => d = .exception
    | .osError => d = .exception
    | .exception => false

/-- A raised Python exception: its class and its message. -/
structure RaisedError where
  cls : ExcClass
  msg : String
  deriving Repr, DecidableEq

/-- The `RemoteRobot` state consumed by `import_remote_library`: the
configured allow-list (`self.allow_import`), the
`self.register_keywords` flag, the imported libraries and the names
registered as remote-callable functions. -/
structure RemoteRobotState where
  allowImport : List String
  registerKeywords : Bool
  libs : List String
  registered : List String
  deriving Repr, DecidableEq

/-- `RemoteRobot.import_remote_library(name)`: when `name` is not in
`self.allow_import`, raise
`RuntimeError("Importing Remote Library '<name>' is not allowed.")` with
nothing imported; otherwise the library is imported and, when
`self.register_keywords` is set, its keywords registered.  (Modelled
from the spec for the part outside the sources at hand: `self.Import`
and the keyword-registration helper live in external modules; per the
spec, an imported library's keywords become resolvable and registration
adds them as remote-callable functions.)  `libKeywords` maps each
library name to its keyword names. -/
def import_remote_library (libKeywords : String → List String)
    (st : RemoteRobotState) (name : String) :
    RemoteRobotState × Except RaisedError Unit :=
  if name ∉ st.allowImport then
    (st, .error ⟨.runtimeError,
      "Importing Remote Library \x27" ++ name ++ "\x27 is not allowed."⟩)
  else
    ({ st with
        libs := st.libs ++ [name]
        registered := st.registered ++
          (if st.registerKeywords then libKeywords name else []) },
      .ok ())

/-- A keyword name resolves on the robot when some imported library
provides it. -/
def keywordResolvable (libKeywords : String → List String)
    (st : RemoteRobotState) (kwname : String) : Bool :=
  st.libs.any (fun lib => (libKeywords lib).contains kwname)

/-! ### Concrete fixtures used by witnesses and counterexamples -/

/-- A keyword body that ignores its arguments and returns `""`. -/
def trivialBody : FuncBody := fun _ _ _ => .ok ""

/-- The implicit signature `(self, a, b, c)` with the single default `5`. -/
def argspecABC : ArgSpec := ⟨["self", "a", "b", "c"], ["5"], none, none⟩

/-- A keyword on `argspecABC` with no override and no context variants. -/
def kwNoOverride : Keyword := ⟨"Kw", ⟨[], argspecABC, trivialBody, []⟩⟩

/-- A keyword on `argspecABC` with the explicit override `["x", "*y"]`. -/
def kwOverride : Keyword := ⟨"Kw", ⟨["x", "*y"], argspecABC, trivialBody, []⟩⟩

/-- A library instance with no session and no context handlers. -/
def emptyLib : LibState := ⟨[], []⟩

/-- A session handler `db`/`dbs` whose active session is object `1`
(registered as `"one"`), with a second session `"two" ↦ 2`. -/
def dbSlot : SessionSlot := ⟨"db", "dbs", some 1, [("one", 1), ("two", 2)]⟩

/-- A library instance with the single session handler `dbSlot`. -/
def libWithDb : LibState := ⟨[dbSlot], []⟩

/-- `libWithDb` after switching the `db` session to `"two"`. -/
def libWithDbSwitched : LibState :=
  ⟨[⟨"db", "dbs", some 2, [("one", 1), ("two", 2)]⟩], []⟩

/-- A second session handler `ftp`/`ftps` with one session `"a" ↦ 10`. -/
def ftpSlot : SessionSlot := ⟨"ftp", "ftps", some 10, [("a", 10)]⟩

/-- A library instance with the two session handlers `db` and `ftp`. -/
def libTwoSessions : LibState := ⟨[dbSlot, ftpSlot], []⟩

/-- `libTwoSessions` after the `db` switch succeeded (and before any
restoration). -/
def libTwoSwitched : LibState :=
  ⟨[⟨"db", "dbs", some 2, [("one", 1), ("two", 2)]⟩, ftpSlot], []⟩

/-- A context-free keyword `(self)` whose body returns `"done"`. -/
def kwSimpleOk : Keyword :=
  ⟨"K", ⟨[], ⟨["self"], [], none, none⟩, fun _ _ _ => .ok "done", []⟩⟩

/-- A context-free keyword `(self)` whose body raises `"boom"`. -/
def kwRaising : Keyword :=
  ⟨"K", ⟨[], ⟨["self"], [], none, none⟩, fun _ _ _ => .error "boom", []⟩⟩

/-- A body that records how it was invoked: positional arguments joined
by `|`, then `#`, then the re-encoded keyword arguments joined by `|`. -/
def recordingBody : FuncBody := fun _ args kwargs =>
  .ok (String.intercalate "|" args ++ "#"
    ++ String.intercalate "|" (kwargs.map encodeKwarg))

/-- A context variant `(self, **kw)` — it declares a variadic-keyword
capture — with a recording body. -/
def variantWithKw : PyVariant := ⟨⟨["self"], [], none, some "kw"⟩, recordingBody⟩

/-- A keyword whose base signature `(self, x)` has no variadic-keyword
capture, with the variant `variantWithKw` registered for context value
`"ctx"` of handler class `Mode`. -/
def kwC5 : Keyword :=
  ⟨"K", ⟨[], ⟨["self", "x"], [], none, none⟩, recordingBody,
    [(⟨"ctx", "Mode"⟩, variantWithKw)]⟩⟩

/-- A library instance whose `mode` context handler is active on
`"ctx"`. -/
def libC5 : LibState := ⟨[], [⟨"mode", "ctx", ["ctx", "other"]⟩]⟩

/-- The keyword environment of the remote fixtures: library `"Lib"`
provides the single keyword `"Kw1"`. -/
def kwEnv : String → List String := fun lib => if lib = "Lib" then ["Kw1"] else []

/-- A remote robot allowing only `"Lib"`, with keyword registration
enabled and nothing imported yet. -/
def stRemote : RemoteRobotState := ⟨["Lib"], true, [], []⟩

/-! ### Helper lemmas -/

/-- The implicit positional tokens are one per positional parameter
after the dropped receiver. -/
theorem implicitPosTokens_length (argspec : ArgSpec) :
    (implicitPosTokens argspec).length = (argspec.args.drop 1).length := by
  by_cases hd : argspec.defaults = [] <;> simp [implicitPosTokens, hd]

/-- A keyword with a context variant has a context handler. -/
theorem contextHandlersOf_ne_nil (f : KwFunc) (h : f.contexts ≠ []) :
    contextHandlersOf f ≠ [] := by
  intro hc
  exact h (List.map_eq_nil_iff.mp ((List.dedup_eq_nil _).mp hc))

/-- With no keyword arguments, the session-interception loop switches
nothing. -/
theorem interceptSessions_kwargs_nil :
    ∀ (hs : List (String × String)) (st : LibState)
      (acc : List ((String × String) × Option Nat)),
      interceptSessions hs st [] acc = (st, .ok ([], acc)) := by
  intro hs
  induction hs with
  | nil => intro st acc; rfl
  | cons h t ih =>
    intro st acc
    obtain ⟨id, pl⟩ := h
    simpa [interceptSessions, popKw] using ih st acc

/-- With no keyword arguments, the context-interception loop switches
nothing. -/
theorem interceptContexts_kwargs_nil :
    ∀ (hnames : List String) (st : LibState) (acc : List (String × String)),
      interceptContexts hnames st [] acc = (st, .ok ([], acc)) := by
  intro hnames
  induction hnames with
  | nil => intro st acc; rfl
  | cons h t ih =>
    intro st acc
    simpa [interceptContexts, popKw] using ih st acc

/-- The variant scan of `Keyword.__call__` resolves to the last entry of
the context-variant table whose context value is currently active, and
to the base implementation when none is. -/
theorem resolveVariant_lastMatch (f : KwFunc) (active : List String) :
    resolveVariant f active
      = ((f.contexts.filter fun cv => cv.1.cname ∈ active).getLast?.elim
          (f.argspec, f.kbody) fun cv => (cv.2.argspec, cv.2.vbody)) := by
  suffices h : ∀ (l : List (CtxValue × PyVariant)) (init : ArgSpec × FuncBody),
      l.foldl (fun acc cv =>
          if cv.1.cname ∈ active then (cv.2.argspec, cv.2.vbody) else acc) init
        = ((l.filter fun cv => cv.1.cname ∈ active).getLast?.elim init
            fun cv => (cv.2.argspec, cv.2.vbody)) by
    exact h f.contexts (f.argspec, f.kbody)
  intro l
  induction l with
  | nil => intro init; rfl
  | cons c t ih =>
    intro init
    rw [List.foldl_cons]
    by_cases hc : c.1.cname ∈ active
    · rw [if_pos hc, ih]
      have hfc : ((c :: t).filter fun cv => cv.1.cname ∈ active)
          = c :: (t.filter fun cv => cv.1.cname ∈ active) := by
        simp [hc]
      rw [hfc]
      cases hft : t.filter fun cv => cv.1.cname ∈ active with
      | nil => rfl
      | cons a u =>
        obtain ⟨b, hb⟩ := Option.isSome_iff_exists.mp
          (List.getLast?_isSome.mpr (List.cons_ne_nil a u))
        rw [List.getLast?_cons_cons, hb]
        rfl
    · rw [if_neg hc, ih]
      have hfc : ((c :: t).filter fun cv => cv.1.cname ∈ active)
          = t.filter fun cv => cv.1.cname ∈ active := by
        simp [hc]
      rw [hfc]

/-- In an association list with distinct keys, lookup of a member's key
returns its value. -/
theorem alookup_of_mem_nodup {α : Type} :
    ∀ {l : List (String × α)}, (l.map Prod.fst).Nodup →
      ∀ {p : String × α}, p ∈ l → alookup p.1 l = some p.2 := by
  intro l
  induction l with
  | nil => intro _ p hp; cases hp
  | cons q t ih =>
    intro hnodup p hp
    obtain ⟨q1, q2⟩ := q
    rcases List.mem_cons.mp hp with hq | ht
    · subst hq; simp [alookup]
    · have hq1 : q1 ≠ p.1 := by
        intro he
        have hm : p.1 ∈ t.map Prod.fst := List.mem_map_of_mem Prod.fst ht
        rw [← he] at hm
        exact (List.nodup_cons.mp hnodup).1 hm
      simp only [alookup, if_neg hq1]
      exact ih (List.nodup_cons.mp hnodup).2 ht

/-- The identity-based restoration scan over a single-handler library:
every pair whose session object is identical to the recorded one
triggers a switch back to its name, so the handler ends on the recorded
object whenever the scanned dict holds it (fetching each name through
the dict, hence the `alookup` agreement hypothesis), and is left
untouched otherwise. -/
theorem restoreSessionScan_single (slot : SessionSlot)
    (ctxSlots : List ContextSlot) (aobj : Nat) :
    ∀ (m : List (String × Nat)) (x : Option Nat),
      (∀ p ∈ m, alookup p.1 slot.named = some p.2) →
      restoreSessionScan slot.identifier (some aobj) m
          ⟨[{slot with active := x}], ctxSlots⟩
        = (⟨[{slot with active :=
              (if m.any (fun p => p.2 = aobj) then some aobj else x)}],
            ctxSlots⟩, none) := by
  intro m
  induction m with
  | nil => intro x _; rfl
  | cons q t ih =>
    intro x hm
    obtain ⟨k, s⟩ := q
    have hk : alookup k slot.named = some s := hm (k, s) (by simp)
    by_cases hs : s = aobj
    · subst hs
      have hsw : switchSession ⟨[{slot with active := x}], ctxSlots⟩
            slot.identifier k
          = .ok ⟨[{slot with active := some s}], ctxSlots⟩ := by
        simp [switchSession, hk, List.find?_cons]
      have hrec := ih (some s) (fun p hp => hm p (List.mem_cons_of_mem _ hp))
      simp only [restoreSessionScan, if_pos rfl, hsw, hrec]
      simp [List.any_cons]
    · have hsf : (decide (s = aobj)) = false := by simp [hs]
      have hcond : ¬(some s = some aobj) := by simp [hs]
      have hrec := ih x (fun p hp => hm p (List.mem_cons_of_mem _ hp))
      simp only [restoreSessionScan, if_neg hcond, hrec]
      simp only [List.any_cons, hsf, Bool.false_or]

/-! ### Theorems for the claims -/

/-- C6: for every keyword function with a (non-empty) explicit
argument-list override, `Keyword.args()` yields exactly the override's
tokens in order and nothing else — the implicit signature and the
synthetic `**options` token contribute nothing. -/
theorem args_explicit_override_exact (kw : Keyword) (st : LibState)
    (h : kw.func.args ≠ []) : kw.argsList st = kw.func.args := by
  simp [Keyword.argsList, h]

/-- Witness for C6 at a concrete keyword whose override is `["x", "*y"]`
while its implicit signature is `(self, a, b, c)` with a default. -/
theorem args_explicit_override_exact_witness :
    kwOverride.func.args ≠ [] ∧ kwOverride.argsList emptyLib = ["x", "*y"] :=
  ⟨by decide, by
    exact args_explicit_override_exact kwOverride emptyLib (by decide)⟩

/-- C7: for keyword functions without an override, the positional token
list has exactly one token per positional parameter after the dropped
receiver; token `i` is `name=default` precisely when the defaults,
right-aligned to the last parameters, cover position `i`, the default
being picked positionally from the right.  In particular
`(self, a, b, c)` with single default `5` gives `["a", "b", "c=5"]`, and
when defaults outnumber the parameters no error occurs and the excess
(leftmost) defaults are unused, as in `(self, a)` with defaults
`1, 2, 3` giving `["a=3"]`. -/
theorem args_defaults_right_aligned :
    (∀ argspec : ArgSpec,
      (implicitPosTokens argspec).length = (argspec.args.drop 1).length
      ∧ ∀ i, i < (argspec.args.drop 1).length →
          (implicitPosTokens argspec).getD i "" =
            (if (argspec.args.drop 1).length ≤ argspec.defaults.length + i then
              (argspec.args.drop 1).getD i "" ++ "="
                ++ argspec.defaults.getD
                    (argspec.defaults.length + i
                      - (argspec.args.drop 1).length) ""
            else (argspec.args.drop 1).getD i ""))
    ∧ kwNoOverride.argsList emptyLib = ["a", "b", "c=5"]
    ∧ implicitPosTokens ⟨["self", "a"], ["1", "2", "3"], none, none⟩
        = ["a=3"] := by
  refine ⟨fun argspec => ?_, by decide, by decide⟩
  by_cases hd : argspec.defaults = []
  · refine ⟨by simp [implicitPosTokens, hd], fun i hi => ?_⟩
    have hk : argspec.defaults.length = 0 := by rw [hd]; rfl
    rw [if_neg (by omega)]
    simp [implicitPosTokens, hd]
  · refine ⟨by simp [implicitPosTokens, hd], fun i hi => ?_⟩
    have ha : (argspec.args.drop 1)[i]?
        = some ((argspec.args.drop 1).get ⟨i, hi⟩) := by
      rw [← List.get?_eq_getElem?]; exact List.get?_eq_get hi
    have key : implicitPosTokens argspec
        = (argspec.args.drop 1).enum.map (fun p =>
            if (argspec.args.drop 1).length ≤ argspec.defaults.length + p.1 then
              p.2 ++ "=" ++ argspec.defaults.getD
                (argspec.defaults.length + p.1
                  - (argspec.args.drop 1).length) ""
            else p.2) := by
      simp [implicitPosTokens, hd]
    simp only [key, List.getD_eq_getD_get?, List.get?_eq_getElem?,
      List.getElem?_map, List.getElem?_enum, ha, Option.map_some',
      Option.getD_some]

/-- Witness for C7: the right-alignment characterization instantiated at
the `(self, a, b, c)` signature with default `5`, position 2. -/
theorem args_defaults_right_aligned_witness :
    2 < (argspecABC.args.drop 1).length ∧
    (implicitPosTokens argspecABC).getD 2 "" = "c=5" := by
  refine ⟨by decide, ?_⟩
  have h := (args_defaults_right_aligned.1 argspecABC).2 2 (by decide)
  rw [h]; decide

/-- C8: for keyword functions without an override: if the signature has
no variadic-keyword capture and the library has at least one session
handler or the keyword at least one context variant, the final token of
`args()` is exactly `"**options"`; if the signature declares a
variadic-keyword capture `k`, the yields end with `"**k"` instead and no
synthetic `"**options"` token is appended. -/
theorem args_options_tail (kw : Keyword) (st : LibState)
    (hov : kw.func.args = []) :
    (kw.func.argspec.keywords = none →
      (st.sessionSlots ≠ [] ∨ kw.func.contexts ≠ []) →
      (kw.argsList st).getLast? = some "**options")
    ∧ (∀ k, kw.func.argspec.keywords = some k →
      kw.argsList st
        = implicitPosTokens kw.func.argspec
          ++ (match kw.func.argspec.varargs with
              | some v => ["*" ++ v]
              | none => [])
          ++ ["**" ++ k]) := by
  constructor
  · intro hk hsc
    have hcond : st.sessionSlots ≠ [] ∨ contextHandlersOf kw.func ≠ [] :=
      hsc.imp id (contextHandlersOf_ne_nil kw.func)
    have hshape : kw.argsList st
        = implicitPosTokens kw.func.argspec
          ++ (match kw.func.argspec.varargs with
              | some v => ["*" ++ v]
              | none => [])
          ++ ["**options"] := by
      simp [Keyword.argsList, hov, hk, hcond]
    rw [hshape]
    exact List.getLast?_concat _
  · intro k hk
    simp [Keyword.argsList, hov, hk]

/-- Witness for C8 at a keyword without an override or variadic-keyword
capture, on a library with one session handler. -/
theorem args_options_tail_witness :
    kwNoOverride.func.args = [] ∧
    (kwNoOverride.argsList libWithDb).getLast? = some "**options" :=
  ⟨rfl, (args_options_tail kwNoOverride libWithDb rfl).1 rfl
    (Or.inl (by decide))⟩

/-- C10: a keyword function whose explicit argument-list override is the
empty sequence is treated as having no override: `args()` falls back to
the implicit-signature derivation, and in particular yields one token
per remaining positional parameter rather than yielding nothing. -/
theorem args_empty_override_falls_back (kw : Keyword) (st : LibState)
    (hov : kw.func.args = []) :
    kw.argsList st
      = implicitPosTokens kw.func.argspec
        ++ (match kw.func.argspec.varargs with
            | some v => ["*" ++ v]
            | none => [])
        ++ (match kw.func.argspec.keywords with
            | some k => ["**" ++ k]
            | none =>
              if st.sessionSlots ≠ [] ∨ contextHandlersOf kw.func ≠ [] then
                ["**options"]
              else [])
    ∧ (kw.func.argspec.args.drop 1 ≠ [] → kw.argsList st ≠ []) := by
  have hshape : kw.argsList st
      = implicitPosTokens kw.func.argspec
        ++ (match kw.func.argspec.varargs with
            | some v => ["*" ++ v]
            | none => [])
        ++ (match kw.func.argspec.keywords with
            | some k => ["**" ++ k]
            | none =>
              if st.sessionSlots ≠ [] ∨ contextHandlersOf kw.func ≠ [] then
                ["**options"]
              else []) := by
    simp [Keyword.argsList, hov]
  refine ⟨hshape, fun hpos hnil => ?_⟩
  rw [hshape] at hnil
  have himp := (List.append_eq_nil.mp (List.append_eq_nil.mp hnil).1).1
  have hlen := implicitPosTokens_length kw.func.argspec
  rw [himp] at hlen
  exact hpos (List.length_eq_zero.mp hlen.symm)

/-- Witness for C10 at a keyword whose override is `[]` over the
signature `(self, a, b, c)`. -/
theorem args_empty_override_falls_back_witness :
    kwNoOverride.func.args = [] ∧ kwNoOverride.argsList emptyLib ≠ [] :=
  ⟨rfl, (args_empty_override_falls_back kwNoOverride emptyLib rfl).2
    (by decide)⟩

/-- C4: a keyword call (shown for calls with no keyword arguments, where
interception leaves the state untouched) invokes the function resolved
by the variant scan over the library's active contexts and propagates
its outcome; and the variant scan resolves to a context variant exactly
when that variant's context value is among the active contexts — the
last matching entry of the table in iteration order when several match —
and to the base implementation when none matches. -/
theorem call_context_variant_resolution :
    (∀ (kw : Keyword) (st : LibState) (args : List String),
      kw.call st args []
        = (st, ((resolveVariant kw.func st.contexts).2 st args []).mapError
            CallError.bodyError))
    ∧ ∀ (f : KwFunc) (active : List String),
      resolveVariant f active
        = ((f.contexts.filter fun cv => cv.1.cname ∈ active).getLast?.elim
            (f.argspec, f.kbody) fun cv => (cv.2.argspec, cv.2.vbody)) := by
  constructor
  · intro kw st args
    unfold Keyword.call
    simp only [interceptSessions_kwargs_nil, interceptContexts_kwargs_nil]
    cases hres : (resolveVariant kw.func st.contexts).2 st args [] with
    | error e => simp [hres, Except.mapError]
    | ok v => simp [hres, Except.mapError, restoreContexts, restoreSessions]
  · exact fun f active => resolveVariant_lastMatch f active

/-- C5 counterexample: on a keyword whose base signature `(self, x)`
lacks a variadic-keyword capture while the *resolved* context variant
declares one (`**kw`), a call with a remaining keyword argument still
re-encodes it as a positional `key=value` string — the variant observes
positional `["x", "extra=1"]` and no keyword arguments, although calling
the resolved function natively would have passed `extra=1` as a keyword
argument.  The claim's condition on the *resolved* function is false;
the code tests `self.func.argspec.keywords`, the base function's. -/
theorem call_forwarding_resolved_counterexample :
    (resolveVariant kwC5.func libC5.contexts).1.keywords = some "kw"
    ∧ kwC5.call libC5 ["x"] [("extra", "1")]
        = (libC5, Except.ok "x|extra=1#")
    ∧ (resolveVariant kwC5.func libC5.contexts).2 libC5 ["x"] [("extra", "1")]
        = Except.ok "x#extra=1"
    ∧ ("x|extra=1#" : String) ≠ "x#extra=1" :=
  ⟨rfl, by rfl, rfl, by decide⟩

/-- C5 amended: after interception, the choice between native
keyword-argument passing and `key=value` re-encoding tests the *base*
function's argspec (`self.func.argspec.keywords`) — not the resolved
variant's — together with emptiness of the remaining keyword arguments;
the resolved function is then invoked with the library instance, the
original positional arguments and either the remaining keyword arguments
(native case) or their `key=value` re-encodings appended positionally. -/
theorem call_forwarding_uses_base_argspec
    (kw : Keyword) (st st1 st2 : LibState) (args : List String)
    (kwargs kwargs1 kwargs2 : List (String × String))
    (curS : List ((String × String) × Option Nat))
    (curC : List (String × String))
    (h1 : interceptSessions st.sessionHandlerMetas st kwargs []
        = (st1, .ok (kwargs1, curS)))
    (h2 : interceptContexts (contextHandlersOf kw.func) st1 kwargs1 []
        = (st2, .ok (kwargs2, curC))) :
    kw.call st args kwargs
      = afterInvoke st2 curC curS
          (if kw.func.argspec.keywords.isSome ∨ kwargs2 = [] then
            (resolveVariant kw.func st2.contexts).2 st2 args kwargs2
          else
            (resolveVariant kw.func st2.contexts).2 st2
              (args ++ kwargs2.map encodeKwarg) []) := by
  by_cases hif : kw.func.argspec.keywords.isSome ∨ kwargs2 = []
  · simp only [Keyword.call, h1, h2, afterInvoke, if_pos hif]
  · simp only [Keyword.call, h1, h2, afterInvoke, if_neg hif]

/-- Witness for C5's amended theorem at the `kwC5`/`libC5` fixture with
one unintercepted keyword argument. -/
theorem call_forwarding_uses_base_argspec_witness :
    interceptSessions libC5.sessionHandlerMetas libC5 [("extra", "1")] []
      = (libC5, .ok ([("extra", "1")], []))
    ∧ kwC5.call libC5 ["x"] [("extra", "1")]
        = afterInvoke libC5 [] [] (Except.ok "x|extra=1#") := by
  refine ⟨rfl, ?_⟩
  have h := call_forwarding_uses_base_argspec kwC5 libC5 libC5 libC5 ["x"]
    [("extra", "1")] [("extra", "1")] [("extra", "1")] [] [] rfl rfl
  rw [h]
  rfl

/-- C1 counterexample: a call that switches the `db` session (from
object `1` to object `2`) and whose body raises `"boom"` propagates the
error, but the previously active session is NOT restored before the
error reaches the caller — the caller observes the library still
switched to object `2`. -/
theorem call_body_error_counterexample :
    kwRaising.call libWithDb [] [("db", "two")]
      = (libWithDbSwitched, .error (.bodyError "boom"))
    ∧ getActiveSession libWithDbSwitched "db"
        ≠ getActiveSession libWithDb "db" :=
  ⟨by rfl, by decide⟩

/-- C1 amended: when the resolved function's body raises, the error
propagates unmodified to the caller (never swallowed), but no
restoration runs — the caller observes the post-interception state, with
every session and context switched during the call still switched. -/
theorem call_body_error_propagates_unrestored
    (kw : Keyword) (st st1 st2 : LibState) (args : List String)
    (kwargs kwargs1 kwargs2 : List (String × String))
    (curS : List ((String × String) × Option Nat))
    (curC : List (String × String)) (e : String)
    (h1 : interceptSessions st.sessionHandlerMetas st kwargs []
        = (st1, .ok (kwargs1, curS)))
    (h2 : interceptContexts (contextHandlersOf kw.func) st1 kwargs1 []
        = (st2, .ok (kwargs2, curC)))
    (hinv : (if kw.func.argspec.keywords.isSome ∨ kwargs2 = [] then
              (resolveVariant kw.func st2.contexts).2 st2 args kwargs2
            else
              (resolveVariant kw.func st2.contexts).2 st2
                (args ++ kwargs2.map encodeKwarg) [])
        = .error e) :
    kw.call st args kwargs = (st2, .error (.bodyError e)) := by
  simp only [Keyword.call, h1, h2, hinv]

/-- Witness for C1's amended theorem at the raising keyword on a library
whose `db` session gets switched. -/
theorem call_body_error_propagates_unrestored_witness :
    interceptSessions libWithDb.sessionHandlerMetas libWithDb
        [("db", "two")] []
      = (libWithDbSwitched, .ok ([], [(("db", "dbs"), some 1)]))
    ∧ kwRaising.call libWithDb [] [("db", "two")]
        = (libWithDbSwitched, .error (.bodyError "boom")) := by
  refine ⟨rfl, ?_⟩
  exact call_body_error_propagates_unrestored kwRaising libWithDb
    libWithDbSwitched libWithDbSwitched [] [("db", "two")] [] []
    [(("db", "dbs"), some 1)] [] "boom" rfl rfl rfl

/-- C3 counterexample: with two session handlers switched in one call,
the second switch (unknown target `"nope"`) raises a
SwitchTargetNotFound-class error that propagates, but the `db` handler —
already switched earlier in the same interception loop — is NOT restored
first: the caller observes `db` still on object `2`. -/
theorem call_switch_error_counterexample :
    kwSimpleOk.call libTwoSessions [] [("db", "two"), ("ftp", "nope")]
      = (libTwoSwitched, .error (.switchTargetNotFound "nope"))
    ∧ getActiveSession libTwoSwitched "db"
        ≠ getActiveSession libTwoSessions "db" :=
  ⟨by rfl, by decide⟩

/-- C3 amended: a session/context switch failure during interception
propagates out of the call unswallowed — an unknown target name for an
existing handler failing precisely with a SwitchTargetNotFound-class
error — but handlers already switched earlier in the interception loop
are NOT restored first: the caller observes exactly the
partially-switched state in which the loop stopped. -/
theorem call_switch_error_propagates_unrestored
    (kw : Keyword) (st : LibState) (args : List String)
    (kwargs : List (String × String)) :
    (∀ (stE : LibState) (e : CallError),
      interceptSessions st.sessionHandlerMetas st kwargs []
          = (stE, .error e) →
      kw.call st args kwargs = (stE, .error e))
    ∧ (∀ (st1 stE : LibState) (kwargs1 : List (String × String))
        (curS : List ((String × String) × Option Nat)) (e : CallError),
      interceptSessions st.sessionHandlerMetas st kwargs []
          = (st1, .ok (kwargs1, curS)) →
      interceptContexts (contextHandlersOf kw.func) st1 kwargs1 []
          = (stE, .error e) →
      kw.call st args kwargs = (stE, .error e))
    ∧ (∀ (id sname : String) (slot : SessionSlot),
      st.sessionSlots.find? (fun s => s.identifier = id) = some slot →
      alookup sname slot.named = none →
      switchSession st id sname = .error (.switchTargetNotFound sname)) := by
  refine ⟨fun stE e h => ?_,
    fun st1 stE kwargs1 curS e h1 h2 => ?_,
    fun id sname slot hf ha => ?_⟩
  · simp only [Keyword.call, h]
  · simp only [Keyword.call, h1, h2]
  · simp only [switchSession, hf, ha]

/-- Witness for C3's amended theorem on the two-handler library with the
second switch target unknown. -/
theorem call_switch_error_propagates_unrestored_witness :
    interceptSessions libTwoSessions.sessionHandlerMetas libTwoSessions
        [("db", "two"), ("ftp", "nope")] []
      = (libTwoSwitched, .error (.switchTargetNotFound "nope"))
    ∧ kwSimpleOk.call libTwoSessions [] [("db", "two"), ("ftp", "nope")]
        = (libTwoSwitched, .error (.switchTargetNotFound "nope")) := by
  refine ⟨rfl, ?_⟩
  exact (call_switch_error_propagates_unrestored kwSimpleOk libTwoSessions []
    [("db", "two"), ("ftp", "nope")]).1 libTwoSwitched
    (.switchTargetNotFound "nope") rfl

/-- C2: a keyword call passing a session-switch keyword argument (the
handler's singular identifier) that returns normally leaves the library
instance's active session identical, by object identity, to the one
active before the call — the entire library state is restored — even
though a different session object is active while the body runs;
restoration locates the switch-back name by identity search of the
plural-identifier dict, which is why the previously active object must
occur among its values.  Stated for a library with one session handler
and a keyword without context variants. -/
theorem call_session_roundtrip
    (kw : Keyword) (slot : SessionSlot) (ctxSlots : List ContextSlot)
    (args : List String) (target aname : String) (tobj aobj : Nat)
    (v : String)
    (hctx : kw.func.contexts = [])
    (hnodup : (slot.named.map Prod.fst).Nodup)
    (htarget : alookup target slot.named = some tobj)
    (hactive : slot.active = some aobj)
    (hmem : (aname, aobj) ∈ slot.named)
    (hbody : kw.func.kbody ⟨[{slot with active := some tobj}], ctxSlots⟩
        args [] = .ok v) :
    kw.call ⟨[slot], ctxSlots⟩ args [(slot.identifier, target)]
      = (⟨[slot], ctxSlots⟩, .ok v)
    ∧ getActiveSession ⟨[{slot with active := some tobj}], ctxSlots⟩
        slot.identifier = some (some tobj)
    ∧ (tobj ≠ aobj →
      getActiveSession ⟨[{slot with active := some tobj}], ctxSlots⟩
          slot.identifier
        ≠ getActiveSession ⟨[slot], ctxSlots⟩ slot.identifier) := by
  have hIS : interceptSessions [(slot.identifier, slot.plural)]
        ⟨[slot], ctxSlots⟩ [(slot.identifier, target)] []
      = (⟨[{slot with active := some tobj}], ctxSlots⟩,
         .ok ([], [((slot.identifier, slot.plural), some aobj)])) := by
    simp [interceptSessions, popKw, getActiveSession, switchSession,
      List.find?_cons, htarget, hactive]
  have hCH : contextHandlersOf kw.func = [] := by
    simp [contextHandlersOf, hctx]
  have hscan := restoreSessionScan_single slot ctxSlots aobj slot.named
    (some tobj) (fun p hp => alookup_of_mem_nodup hnodup hp)
  have hany : (slot.named.any fun p => decide (p.2 = aobj)) = true :=
    List.any_eq_true.mpr ⟨(aname, aobj), hmem, by simp⟩
  have hscan2 : restoreSessionScan slot.identifier (some aobj) slot.named
        ⟨[{slot with active := some tobj}], ctxSlots⟩
      = (⟨[{slot with active := some aobj}], ctxSlots⟩, none) := by
    rw [hscan, hany]
    simp
  have hslot : ({slot with active := some aobj} : SessionSlot) = slot := by
    rw [← hactive]
  have hRS : restoreSessions
        [((slot.identifier, slot.plural), some aobj)]
        ⟨[{slot with active := some tobj}], ctxSlots⟩
      = (⟨[slot], ctxSlots⟩, none) := by
    simp [restoreSessions, getNamedSessions, List.find?_cons, hscan2, hslot]
  have hbase : resolveVariant kw.func
        (⟨[{slot with active := some tobj}], ctxSlots⟩ : LibState).contexts
      = (kw.func.argspec, kw.func.kbody) := by
    simp [resolveVariant, hctx]
  refine ⟨?_, by simp [getActiveSession, List.find?_cons], fun hne => ?_⟩
  · simp only [Keyword.call, LibState.sessionHandlerMetas, List.map_cons,
      List.map_nil, hIS, hCH, interceptContexts_kwargs_nil, hbase]
    simp only [List.nil_eq, or_true, if_true, hbody, restoreContexts, hRS]
  · simp [getActiveSession, List.find?_cons, hactive, hne]

/-- Witness for C2 at the `db` handler: the call switches to session
`"two"` (object 2) and afterwards the library is back on object 1,
restored by identity lookup of the name `"one"`. -/
theorem call_session_roundtrip_witness :
    kwSimpleOk.func.contexts = []
    ∧ kwSimpleOk.call libWithDb [] [("db", "two")]
        = (libWithDb, .ok "done") := by
  refine ⟨rfl, ?_⟩
  exact (call_session_roundtrip kwSimpleOk dbSlot [] [] "two" "one" 2 1
    "done" rfl (by decide) (by decide) rfl (by decide) rfl).1

/-- C9 counterexample: for a name outside the allow-list,
`import_remote_library` raises a RuntimeError — whose class is not
PermissionError nor any subclass of it — so the claim's
"PermissionError-class error" is false (its "not allowed" message part
is accurate). -/
theorem import_not_permission_counterexample :
    (import_remote_library kwEnv stRemote "X").2
      = .error ⟨.runtimeError,
          "Importing Remote Library \x27X\x27 is not allowed."⟩
    ∧ ExcClass.isSubclassOf .runtimeError .permissionError = false :=
  ⟨by rfl, by decide⟩

/-- C9 amended: for names outside the allow-list,
`import_remote_library` fails with a RuntimeError whose message contains
"not allowed" and imports nothing (the state is unchanged); for names in
the allow-list the call succeeds, the library's keywords become
resolvable, and, when keyword registration is enabled, each of its
keywords is registered as a remote-callable function. -/
theorem import_allow_list_gating (libKeywords : String → List String)
    (st : RemoteRobotState) (name : String) :
    (name ∉ st.allowImport →
      ∃ msg, import_remote_library libKeywords st name
          = (st, .error ⟨.runtimeError, msg⟩)
        ∧ ∃ pre post, msg = pre ++ "not allowed" ++ post)
    ∧ (name ∈ st.allowImport →
      (import_remote_library libKeywords st name).2 = .ok ()
      ∧ (∀ k ∈ libKeywords name,
          keywordResolvable libKeywords
            (import_remote_library libKeywords st name).1 k = true)
      ∧ (st.registerKeywords = true →
          ∀ k ∈ libKeywords name,
            k ∈ (import_remote_library libKeywords st name).1.registered)) := by
  constructor
  · intro hnot
    refine ⟨"Importing Remote Library \x27" ++ name
        ++ "\x27 is not allowed.", ?_,
      "Importing Remote Library \x27" ++ name ++ "\x27 is ", ".", ?_⟩
    · simp [import_remote_library, hnot]
    · simp only [String.append_assoc]
      rfl
  · intro hin
    refine ⟨?_, fun k hk => ?_, fun hreg k hk => ?_⟩
    · simp [import_remote_library, not_not_intro hin]
    · simp only [import_remote_library, if_neg (not_not_intro hin),
        keywordResolvable, List.any_append]
      have hc : (libKeywords name).contains k = true := by
        simpa using hk
      simp [hc, hk]
    · simp only [import_remote_library, if_neg (not_not_intro hin), hreg,
        if_pos rfl]
      exact List.mem_append_right _ hk

/-- Witness for C9's amended theorem: `"X"` is refused with a
RuntimeError message containing "not allowed", while importing the
allowed `"Lib"` makes its keyword `"Kw1"` resolvable. -/
theorem import_allow_list_gating_witness :
    ("X" ∉ stRemote.allowImport
      ∧ ∃ msg, import_remote_library kwEnv stRemote "X"
          = (stRemote, .error ⟨.runtimeError, msg⟩)
        ∧ ∃ pre post, msg = pre ++ "not allowed" ++ post)
    ∧ ("Lib" ∈ stRemote.allowImport
      ∧ keywordResolvable kwEnv
          (import_remote_library kwEnv stRemote "Lib").1 "Kw1" = true) := by
  constructor
  · exact ⟨by decide,
      (import_allow_list_gating kwEnv stRemote "X").1 (by decide)⟩
  · exact ⟨by decide,
      ((import_allow_list_gating kwEnv stRemote "Lib").2 (by decide)).2.1
        "Kw1" (by decide)⟩

end RobotTools
